import Mathlib

/-!
Verification development for the YAML-to-database sync script
(`scripts/to_database.py`): a shallow embedding of its data model and
operations, followed by theorems checking the natural-language
specification against that embedding.

Modelling conventions:
* Database rows and sub-collection items are association lists of
  field name to `Value` (`Item`).  A row created by `manager.create(**obj)`
  is modelled as the mapping `obj` itself.
* Django foreign-key references are modelled as snapshot values:
  an organization reference carries the referenced row's id,
  classification and jurisdiction (`Value.vorg`), matching the fact that
  Django compares model objects by primary key and the store is
  internally consistent during one run.
* Exceptions are modelled with `Except PyErr`; `transaction.atomic`
  rollback is modelled by returning the entry store whenever the body
  ends in an error.
* The unbounded `while` loop of `sort_organizations` is modelled with
  explicit fuel: `none` means the loop has not terminated within the
  given fuel.
-/

/-- Field values stored in rows and compared by the sync engine. -/
inductive Value where
  | vnone : Value
  | vstr (s : String) : Value
  | vdict (entries : List (String × String)) : Value
  | vorg (oid : String) (classification : String) (jurisdiction : String) : Value
  | vpost (oid : String) (label : String) : Value
  | vperson (pid : String) : Value
deriving DecidableEq, Repr

/-- A row or sub-collection item: an association list from field names to values. -/
abbrev Item := List (String × Value)

/-- First binding of a field name in a row (Python attribute / dict access). -/
def lookupField (row : Item) (k : String) : Option Value :=
  match row with
  | [] => none
  | (k', v) :: rest => if k' = k then some v else lookupField rest k

/-- Replace the first binding of `k` (or append one): Python `setattr`. -/
def setField (row : Item) (k : String) (v : Value) : Item :=
  match row with
  | [] => [(k, v)]
  | (k', v') :: rest => if k' = k then (k, v) :: rest else (k', v') :: setField rest k v

/-- Django `filter(**obj)` / `exclude(**obj)` row predicate: the row agrees
with `obj` on every field `obj` mentions. -/
def matchesFilter (row : Item) (obj : Item) : Bool :=
  obj.all (fun kv => lookupField row kv.1 == some kv.2)

/-- Python `s.startswith(pre)`, computed over the character list so that
concrete instances reduce by kernel computation. -/
def pyStartsWith (s pre : String) : Bool :=
  pre.toList.isPrefixOf s.toList

/-- Python exceptions that can escape the modelled code. -/
inductive PyErr where
  | cancelTransaction : PyErr
  | doesNotExist : PyErr
  | multipleObjects : PyErr
  | valueError : PyErr
  | keyError : PyErr
  | nameError : PyErr
  | assertionError : PyErr
deriving DecidableEq, Repr

/-- Embedding of `update_subobjects(person, fieldname, objects, read_manager)`.

`stored` is the full stored table for this sub-collection field (the default
manager), `readView` is the filter defining the read manager (everything, or
the committee-excluding view for person memberships), `objects` the desired
item list, and `ownerSaves` the owning entity's save counter (its
`updated_at` bumps exactly when `save()` is called).  Returns
`(updated, new stored rows, new save counter)`.

`subUpdated` is the change test of `update_subobjects`: the counts differ,
or the chain `qs = qs.exclude(**obj)` over all desired objects leaves some
stored item of the read view unexcluded. -/
def subUpdated (stored : List Item) (readView : Item → Bool)
    (objects : List Item) : Bool :=
  if (stored.filter readView).length ≠ objects.length then true
  else !((stored.filter readView).filter
    (fun r => objects.all (fun obj => !(matchesFilter r obj)))).isEmpty

def update_subobjects (stored : List Item) (readView : Item → Bool)
    (objects : List Item) (ownerSaves : Nat) : Bool × List Item × Nat :=
  if subUpdated stored readView objects then
    let afterDelete :=
      if (stored.filter readView).length ≠ 0 then
        stored.filter (fun r => !(readView r))
      else stored
    (true, afterDelete ++ objects, ownerSaves + 1)
  else
    (false, stored, ownerSaves)

/-- `{k: data[k] for k in lookup_keys}`; a missing key raises `KeyError`. -/
def buildKwargs (data : Item) (lookup_keys : List String) : Except PyErr Item :=
  match lookup_keys with
  | [] => .ok []
  | k :: rest =>
    match lookupField data k with
    | none => .error .keyError
    | some v => (buildKwargs data rest).map (fun l => (k, v) :: l)

/-- The field-diffing loop of `get_update_or_create`: for each field in
`data`, compare to the current attribute and set it if different.  Returns
the resulting row and whether any field was written. -/
def applyUpdates : Item → Item → Item × Bool
  | row, [] => (row, false)
  | row, (k, v) :: rest =>
    if lookupField row k ≠ some v then
      ((applyUpdates (setField row k v) rest).1, true)
    else applyUpdates row rest

/-- Embedding of `get_update_or_create(ModelCls, data, lookup_keys)` over a
generic table of rows.  Returns `(entity, created, updated, new table)`. -/
def get_update_or_create (rows : List Item) (data : Item)
    (lookup_keys : List String) : Except PyErr (Item × Bool × Bool × List Item) := do
  let kwargs ← buildKwargs data lookup_keys
  match rows.filter (fun r => matchesFilter r kwargs) with
  | [] => .ok (data, true, false, rows ++ [data])
  | [r] =>
    let res := applyUpdates r data
    if res.2 then
      .ok (res.1, false, true,
        rows.map (fun q => if matchesFilter q kwargs then res.1 else q))
    else
      .ok (r, false, false, rows)
  | _ => .error .multipleObjects

/-- A stored Person row: scalar fields plus its sub-collection tables and a
save counter (each `person.save()` bumps `updated_at`; we count them). -/
structure PersonRow where
  fields : Item
  other_names : List Item := []
  links : List Item := []
  sources : List Item := []
  identifiers : List Item := []
  contact_details : List Item := []
  memberships : List Item := []
  saves : Nat := 0
deriving DecidableEq, Repr

/-- A stored Organization row. -/
structure OrgRow where
  fields : Item
  posts : List Item := []
  links : List Item := []
  sources : List Item := []
  memberships : List Item := []
  identifiers : List Item := []
  saves : Nat := 0
deriving DecidableEq, Repr

/-- A BillSponsorship row (only its person foreign key matters here). -/
structure SponsorshipRow where
  bill : String
  person_id : String
deriving DecidableEq, Repr

/-- The persistent store visible to the sync script. -/
structure Store where
  persons : List PersonRow
  orgs : List OrgRow
  sponsorships : List SponsorshipRow
deriving DecidableEq, Repr

/-- String content of a field, with empty-string fallback for absent or
non-string fields. -/
def itemStr (row : Item) (k : String) : String :=
  match lookupField row k with
  | some (.vstr s) => s
  | _ => ""

def personStr (p : PersonRow) (k : String) : String := itemStr p.fields k

def orgStr (o : OrgRow) (k : String) : String := itemStr o.fields k

/-- Reference snapshot for an organization row (Django model object). -/
def orgRef (o : OrgRow) : Value :=
  .vorg (orgStr o "id") (orgStr o "classification") (orgStr o "jurisdiction_id")

/-- Reference snapshot for a post row of an organization. -/
def postRef (o : OrgRow) (post : Item) : Value :=
  .vpost (orgStr o "id") (itemStr post "label")

/-- `Organization.objects.get(**kwargs)` over the org table. -/
def orgsGet (orgs : List OrgRow) (kwargs : Item) : Except PyErr OrgRow :=
  match orgs.filter (fun o => matchesFilter o.fields kwargs) with
  | [] => .error .doesNotExist
  | [o] => .ok o
  | _ => .error .multipleObjects

/-- `org.posts.get(label=label)`. -/
def postsGet (o : OrgRow) (label : String) : Except PyErr Item :=
  match o.posts.filter (fun p => matchesFilter p [("label", .vstr label)]) with
  | [] => .error .doesNotExist
  | [p] => .ok p
  | _ => .error .multipleObjects

/-- Membership rows whose organization is committee-classified
(`organization__classification="committee"`). -/
def isCommittee (m : Item) : Bool :=
  match lookupField m "organization" with
  | some (.vorg _ cls _) => cls == "committee"
  | _ => false

/-- `get_update_or_create(Person, fields, ["id"])` specialised to the person
table (sub-collections and save counter live on the row). -/
def person_guoc (persons : List PersonRow) (data : Item) :
    Except PyErr (Bool × Bool × List PersonRow) := do
  let kwargs ← buildKwargs data ["id"]
  match persons.filter (fun p => matchesFilter p.fields kwargs) with
  | [] => .ok (true, false, persons ++ [{ fields := data }])
  | [p] =>
    let res := applyUpdates p.fields data
    if res.2 then
      .ok (false, true, persons.map (fun q =>
        if matchesFilter q.fields kwargs then
          { q with fields := res.1, saves := q.saves + 1 }
        else q))
    else
      .ok (false, false, persons)
  | _ => .error .multipleObjects

/-- `get_update_or_create(Organization, fields, ["id"])` specialised to the
org table. -/
def org_guoc (orgs : List OrgRow) (data : Item) :
    Except PyErr (Bool × Bool × List OrgRow) := do
  let kwargs ← buildKwargs data ["id"]
  match orgs.filter (fun o => matchesFilter o.fields kwargs) with
  | [] => .ok (true, false, orgs ++ [{ fields := data }])
  | [o] =>
    let res := applyUpdates o.fields data
    if res.2 then
      .ok (false, true, orgs.map (fun q =>
        if matchesFilter q.fields kwargs then
          { q with fields := res.1, saves := q.saves + 1 }
        else q))
    else
      .ok (false, false, orgs)
  | _ => .error .multipleObjects

/-- One `update_subobjects` call against the person whose id field is `idv`:
reads the sub-collection with `get`, writes it back with `set`, and bumps the
row's save counter when an update happened. -/
def person_sub_pass (persons : List PersonRow) (idv : Value)
    (get : PersonRow → List Item) (set : PersonRow → List Item → PersonRow)
    (view : Item → Bool) (objects : List Item) : Bool × List PersonRow :=
  match persons.find? (fun p => matchesFilter p.fields [("id", idv)]) with
  | none => (false, persons)
  | some p =>
    let res := update_subobjects (get p) view objects p.saves
    if res.1 then
      (true, persons.map (fun q =>
        if matchesFilter q.fields [("id", idv)] then
          { set q res.2.1 with saves := res.2.2 }
        else q))
    else
      (false, persons)

/-- One `update_subobjects` call against the org whose id field is `idv`. -/
def org_sub_pass (orgs : List OrgRow) (idv : Value)
    (get : OrgRow → List Item) (set : OrgRow → List Item → OrgRow)
    (view : Item → Bool) (objects : List Item) : Bool × List OrgRow :=
  match orgs.find? (fun o => matchesFilter o.fields [("id", idv)]) with
  | none => (false, orgs)
  | some o =>
    let res := update_subobjects (get o) view objects o.saves
    if res.1 then
      (true, orgs.map (fun q =>
        if matchesFilter q.fields [("id", idv)] then
          { set q res.2.1 with saves := res.2.2 }
        else q))
    else
      (false, orgs)

/-- External collaborators consulted by the loaders (`utils.legacy_districts`):
jurisdiction id and role type to the list of legacy district labels. -/
structure Ctx where
  legacy : String → String → List String

/-- A raw person record as parsed from YAML; `.get` defaults of the source
are the field defaults here. -/
structure ContactDetail where
  note : String := ""
  address : Option String := none
  email : Option String := none
  voice : Option String := none
  fax : Option String := none
deriving DecidableEq, Repr

structure PartyEntry where
  name : String
  start_date : String := ""
  end_date : String := ""
deriving DecidableEq, Repr

structure RoleEntry where
  type : String
  district : Option String := none
  jurisdiction : String
  start_date : String := ""
  end_date : String := ""
deriving DecidableEq, Repr

structure PersonData where
  id : String
  name : String
  given_name : String := ""
  family_name : String := ""
  gender : String := ""
  biography : String := ""
  birth_date : String := ""
  death_date : String := ""
  image : String := ""
  extras : List (String × String) := []
  other_names : List Item := []
  links : List Item := []
  sources : List Item := []
  ids : List (String × String) := []
  other_identifiers : List Item := []
  contact_details : List ContactDetail := []
  party : List PartyEntry := []
  roles : List RoleEntry := []
deriving DecidableEq, Repr

/-- The scalar field mapping built at the top of `load_person`. -/
def personFields (d : PersonData) : Item :=
  [("id", .vstr d.id), ("name", .vstr d.name), ("given_name", .vstr d.given_name),
   ("family_name", .vstr d.family_name), ("gender", .vstr d.gender),
   ("biography", .vstr d.biography), ("birth_date", .vstr d.birth_date),
   ("death_date", .vstr d.death_date), ("image", .vstr d.image),
   ("extras", .vdict d.extras)]

/-- The unified identifiers list: `ids` entries then `other_identifiers`. -/
def personIdentifiers (d : PersonData) : List Item :=
  d.ids.map (fun kv => [("scheme", Value.vstr kv.1), ("identifier", Value.vstr kv.2)])
    ++ d.other_identifiers

/-- One contact-details row per populated channel (`if cd.get(type):` is a
truthiness test, so an absent or empty value is skipped). -/
def cdEntry (note : String) (ty : String) (v : Option String) : List Item :=
  match v with
  | some s =>
    if s ≠ "" then [[("note", Value.vstr note), ("type", Value.vstr ty), ("value", Value.vstr s)]]
    else []
  | none => []

def personContactDetails (d : PersonData) : List Item :=
  d.contact_details.foldr (fun cd acc =>
    cdEntry cd.note "address" cd.address ++ cdEntry cd.note "email" cd.email ++
      cdEntry cd.note "voice" cd.voice ++ cdEntry cd.note "fax" cd.fax ++ acc) []

/-- The party loop of `load_person`: each party entry resolves the party
organization by classification and name (`DoesNotExist` becomes
`CancelTransaction`) and yields one membership item. -/
def buildPartyMemberships (orgs : List OrgRow) : List PartyEntry → Except PyErr (List Item)
  | [] => .ok []
  | party :: rest =>
    match orgsGet orgs [("classification", .vstr "party"), ("name", .vstr party.name)] with
    | .error .doesNotExist => .error .cancelTransaction
    | .error e => .error e
    | .ok org =>
      (buildPartyMemberships orgs rest).map (fun ms =>
        [("organization", orgRef org),
         ("start_date", Value.vstr party.start_date),
         ("end_date", Value.vstr party.end_date)] :: ms)

/-- The roles loop of `load_person`: a legislative role resolves its chamber
organization and post (a missing post is tolerated only for legacy district
labels, which skips the entry); any other role type raises
`ValueError("unsupported role type")`. -/
def buildRoleMemberships (ctx : Ctx) (orgs : List OrgRow) :
    List RoleEntry → Except PyErr (List Item)
  | [] => .ok []
  | role :: rest =>
    if role.type = "upper" ∨ role.type = "lower" ∨ role.type = "legislature" then
      match orgsGet orgs [("classification", .vstr role.type),
                          ("jurisdiction_id", .vstr role.jurisdiction)] with
      | .error .doesNotExist => .error .cancelTransaction
      | .error e => .error e
      | .ok org =>
        match role.district with
        | none => .error .keyError
        | some district =>
          match postsGet org district with
          | .error .doesNotExist =>
            if (ctx.legacy role.jurisdiction role.type).contains district then
              buildRoleMemberships ctx orgs rest
            else .error .cancelTransaction
          | .error e => .error e
          | .ok post =>
            (buildRoleMemberships ctx orgs rest).map (fun ms =>
              [("organization", orgRef org), ("post", postRef org post),
               ("start_date", Value.vstr role.start_date),
               ("end_date", Value.vstr role.end_date)] :: ms)
    else .error .valueError

/-- The full memberships derivation of `load_person`: party memberships in
order, then role memberships. -/
def buildMemberships (ctx : Ctx) (d : PersonData) (orgs : List OrgRow) :
    Except PyErr (List Item) := do
  let pms ← buildPartyMemberships orgs d.party
  let rms ← buildRoleMemberships ctx orgs d.roles
  return pms ++ rms

/-- Embedding of `load_person(data)`: upsert the scalar fields, then
reconcile each sub-collection; the memberships pass reads through the
committee-excluding view.  Returns `(created, updated)` plus the new store. -/
def load_person (ctx : Ctx) (d : PersonData) (s : Store) :
    Except PyErr (Bool × Bool × Store) := do
  let fields := personFields d
  let r0 ← person_guoc s.persons fields
  let idv : Value := .vstr d.id
  let r1 := person_sub_pass r0.2.2 idv (fun p => p.other_names)
    (fun p l => { p with other_names := l }) (fun _ => true) d.other_names
  let r2 := person_sub_pass r1.2 idv (fun p => p.links)
    (fun p l => { p with links := l }) (fun _ => true) d.links
  let r3 := person_sub_pass r2.2 idv (fun p => p.sources)
    (fun p l => { p with sources := l }) (fun _ => true) d.sources
  let r4 := person_sub_pass r3.2 idv (fun p => p.identifiers)
    (fun p l => { p with identifiers := l }) (fun _ => true) (personIdentifiers d)
  let r5 := person_sub_pass r4.2 idv (fun p => p.contact_details)
    (fun p l => { p with contact_details := l }) (fun _ => true) (personContactDetails d)
  let ms ← buildMemberships ctx d s.orgs
  let r6 := person_sub_pass r5.2 idv (fun p => p.memberships)
    (fun p l => { p with memberships := l }) (fun m => !(isCommittee m)) ms
  return (r0.1, r0.2.1 || r1.1 || r2.1 || r3.1 || r4.1 || r5.1 || r6.1,
    { s with persons := r6.2 })

/-- A raw organization record as parsed from YAML. -/
structure OrgMembershipData where
  id : Option String := none
  name : String
  role : String := "member"
  start_date : String := ""
  end_date : String := ""
deriving DecidableEq, Repr

structure OrgData where
  id : String
  name : String
  parent : String
  jurisdiction : String
  classification : String
  founding_date : String := ""
  dissolution_date : String := ""
  links : List Item := []
  sources : List Item := []
  memberships : List OrgMembershipData := []
deriving DecidableEq, Repr

/-- Parent resolution at the top of `load_org`: a direct organization id, or
a classification scoped to the record's jurisdiction.  `DoesNotExist` is not
caught here and propagates. -/
def parentLookup (d : OrgData) (orgs : List OrgRow) : Except PyErr OrgRow :=
  if pyStartsWith d.parent "ocd-organization" then
    orgsGet orgs [("id", .vstr d.parent)]
  else
    orgsGet orgs [("jurisdiction_id", .vstr d.jurisdiction), ("classification", .vstr d.parent)]

/-- The scalar field mapping of `load_org`. -/
def orgFields (d : OrgData) (parent : Value) : Item :=
  [("id", .vstr d.id), ("name", .vstr d.name), ("jurisdiction_id", .vstr d.jurisdiction),
   ("classification", .vstr d.classification), ("founding_date", .vstr d.founding_date),
   ("dissolution_date", .vstr d.dissolution_date), ("parent", parent)]

/-- The memberships loop of `load_org`: a membership with a truthy `id`
binds to an existing person (`DoesNotExist` becomes `CancelTransaction`),
otherwise it is a free-text name with a role label. -/
def buildOrgMemberships (d : OrgData) (persons : List PersonRow) :
    Except PyErr (List Item) := do
  let mut ms : List Item := []
  for role in d.memberships do
    let pv ← match role.id with
      | some pid =>
        if pid ≠ "" then
          match persons.filter (fun p => matchesFilter p.fields [("id", .vstr pid)]) with
          | [] => throw PyErr.cancelTransaction
          | [_] => pure (Value.vperson pid)
          | _ => throw PyErr.multipleObjects
        else pure Value.vnone
      | none => pure Value.vnone
    ms := ms ++ [[("person", pv), ("person_name", Value.vstr role.name),
                  ("role", Value.vstr role.role),
                  ("start_date", Value.vstr role.start_date),
                  ("end_date", Value.vstr role.end_date)]]
  return ms

/-- Embedding of `load_org(data)`. -/
def load_org (d : OrgData) (s : Store) : Except PyErr (Bool × Bool × Store) := do
  let parent ← parentLookup d s.orgs
  let fields := orgFields d (orgRef parent)
  let r0 ← org_guoc s.orgs fields
  let idv : Value := .vstr d.id
  let r1 := org_sub_pass r0.2.2 idv (fun o => o.links)
    (fun o l => { o with links := l }) (fun _ => true) d.links
  let r2 := org_sub_pass r1.2 idv (fun o => o.sources)
    (fun o l => { o with sources := l }) (fun _ => true) d.sources
  let ms ← buildOrgMemberships d s.persons
  let r3 := org_sub_pass r2.2 idv (fun o => o.memberships)
    (fun o l => { o with memberships := l }) (fun _ => true) ms
  return (r0.1, r0.2.1 || r1.1 || r2.1 || r3.1, { s with orgs := r3.2 })

/-- Eligibility test of `sort_organizations`: a record can be moved to the
output once its parent is a batch id already seen, or its parent is not a
batch-internal organization id at all. -/
def sortEligible (seen : List String) (o : OrgData) : Bool :=
  (pyStartsWith o.parent "ocd-organization" && seen.contains o.parent) ||
    !(pyStartsWith o.parent "ocd-organization")

/-- State of the repeated-pass sort: ids already seen, the output order, and
the records still waiting. -/
structure SortState where
  seen : List String
  order : List (OrgData × String)
  rem : List (OrgData × String)
deriving DecidableEq, Repr

/-- Treatment of one snapshot element inside the `for org, filename in
list(orgs):` loop: an eligible record moves to the output (and its id
becomes seen immediately), the rest stay in the working set. -/
def onePassStep (acc : SortState) (of : OrgData × String) : SortState :=
  if sortEligible acc.seen of.1 then
    { acc with seen := acc.seen ++ [of.1.id], order := acc.order ++ [of] }
  else
    { acc with rem := acc.rem ++ [of] }

/-- One full iteration of the inner loop over a snapshot of the remaining
records. -/
def onePass (st : SortState) : SortState :=
  st.rem.foldl onePassStep { st with rem := [] }

/-- The `while orgs:` loop, with fuel; `none` means it has not terminated
within `fuel` passes. -/
def sortLoop : Nat → SortState → Option (List (OrgData × String))
  | 0, _ => none
  | fuel + 1, st =>
    if st.rem.isEmpty then some st.order else sortLoop fuel (onePass st)

/-- Outcome of `sort_organizations` when its loop terminates: the sorted
order, or a violation of `assert len(order) == how_many`. -/
inductive SortResult where
  | ok (order : List (OrgData × String)) : SortResult
  | assertError : SortResult
deriving DecidableEq, Repr

/-- Embedding of `sort_organizations(orgs)` (with loop fuel). -/
def sort_organizations (fuel : Nat) (orgs : List (OrgData × String)) : Option SortResult :=
  (sortLoop fuel { seen := [], order := [], rem := orgs }).map (fun order =>
    if order.length = orgs.length then .ok order else .assertError)

/-- The two directory kinds handled by `load_directory`. -/
inductive DirType where
  | person : DirType
  | organization : DirType
deriving DecidableEq, Repr

/-- One parsed data file in a directory batch. -/
inductive DirData where
  | person (d : PersonData) : DirData
  | organization (d : OrgData) : DirData
deriving DecidableEq, Repr

def dirDataId : DirData → String
  | .person d => d.id
  | .organization d => d.id

/-- The set of already-stored ids for this jurisdiction and type: persons
with a membership in an organization of the jurisdiction, or
committee-classified organizations of the jurisdiction. -/
def membershipJur (m : Item) : Option String :=
  match lookupField m "organization" with
  | some (.vorg _ _ jur) => some jur
  | _ => none

def existingIds (type : DirType) (jurisdiction_id : String) (s : Store) : List String :=
  match type with
  | .person =>
    (s.persons.filter (fun p =>
      p.memberships.any (fun m => membershipJur m == some jurisdiction_id))).map
      (fun p => personStr p "id")
  | .organization =>
    (s.orgs.filter (fun o => matchesFilter o.fields
      [("jurisdiction_id", .vstr jurisdiction_id), ("classification", .vstr "committee")])).map
      (fun o => orgStr o "id")

/-- Restrict a batch to organization records; a person-shaped record in an
organization directory would fail dictionary access inside the sort. -/
def asOrgFiles : List (DirData × String) → Option (List (OrgData × String))
  | [] => some []
  | (.organization d, fn) :: rest => (asOrgFiles rest).map (fun l => (d, fn) :: l)
  | (.person _, _) :: _ => none

/-- The ordering phase of `load_directory`: organizations go through
`sort_organizations` first, person batches keep file order. -/
def sortPhase (fuel : Nat) (files : List (DirData × String)) (type : DirType) :
    Option (Except PyErr (List (DirData × String))) :=
  match type with
  | .person => some (.ok files)
  | .organization =>
    match asOrgFiles files with
    | none => some (.error .keyError)
    | some ofiles =>
      match sort_organizations fuel ofiles with
      | none => none
      | some (.ok order) =>
        some (.ok (order.map (fun of => (DirData.organization of.1, of.2))))
      | some .assertError => some (.error .assertionError)

/-- The per-record loop of `load_directory`: collect each record's id into
the seen set and run its loader. -/
def loadPhase (ctx : Ctx) : List (DirData × String) → Store →
    Except PyErr (List String × Store)
  | [], s => .ok ([], s)
  | (.person d, _) :: rest, s => do
    let r ← load_person ctx d s
    let (ids, s') ← loadPhase ctx rest r.2.2
    .ok (d.id :: ids, s')
  | (.organization d, _) :: rest, s => do
    let r ← load_org d s
    let (ids, s') ← loadPhase ctx rest r.2.2
    .ok (d.id :: ids, s')

/-- Merge detection for one missing id:
`ModelCls.objects.get(identifiers__identifier=missing_id, identifiers__scheme="openstates")`.
Both conditions constrain the same identifier row. -/
def mergeLookup (type : DirType) (s : Store) (missing_id : String) :
    Except PyErr (Option String) :=
  let hasLegacy := fun (idents : List Item) => idents.any (fun i =>
    lookupField i "identifier" == some (.vstr missing_id) &&
      lookupField i "scheme" == some (.vstr "openstates"))
  match type with
  | .person =>
    match s.persons.filter (fun p => hasLegacy p.identifiers) with
    | [] => .ok none
    | [p] => .ok (some (personStr p "id"))
    | _ => .error .multipleObjects
  | .organization =>
    match s.orgs.filter (fun o => hasLegacy o.identifiers) with
    | [] => .ok none
    | [o] => .ok (some (orgStr o "id"))
    | _ => .error .multipleObjects

/-- The merge-detection loop over all missing ids, building `merged`. -/
def findMerges (type : DirType) (s : Store) : List String →
    Except PyErr (List (String × String))
  | [] => .ok []
  | m :: rest => do
    let r ← mergeLookup type s m
    let others ← findMerges type s rest
    match r with
    | some nid => .ok ((m, nid) :: others)
    | none => .ok others

/-- The merge-application loop: redirect bill sponsorships to the surviving
entity, delete the stale row, and drop the id from `missing`.
`BillSponsorship` is imported only inside the person branch of
`load_directory`; in the organization branch the name is unbound and the
first loop iteration raises an (unhandled) name error. -/
def applyMerges (type : DirType) : List (String × String) → Store → List String →
    Except PyErr (Store × List String)
  | [], s, missing => .ok (s, missing)
  | (old, new) :: rest, s, missing =>
    match type with
    | .organization => .error .nameError
    | .person =>
      let sponsors := s.sponsorships.map (fun b =>
        if b.person_id = old then { b with person_id := new } else b)
      let persons := s.persons.filter (fun p => !(personStr p "id" == old))
      applyMerges .person rest
        { s with sponsorships := sponsors, persons := persons } (missing.erase old)

/-- The purge step: `ModelCls.objects.filter(id__in=missing_ids).delete()`. -/
def purgeEntities (type : DirType) (missing : List String) (s : Store) : Store :=
  match type with
  | .person =>
    { s with persons := s.persons.filter (fun p => !(missing.contains (personStr p "id"))) }
  | .organization =>
    { s with orgs := s.orgs.filter (fun o => !(missing.contains (orgStr o "id"))) }

/-- Embedding of `load_directory(files, type, jurisdiction_id, purge)`. -/
def load_directory (ctx : Ctx) (fuel : Nat) (files : List (DirData × String))
    (type : DirType) (jurisdiction_id : String) (purge : Bool) (s : Store) :
    Option (Except PyErr Store) :=
  match sortPhase fuel files type with
  | none => none
  | some (.error e) => some (.error e)
  | some (.ok all_data) =>
    some (do
      let existing_ids := existingIds type jurisdiction_id s
      let (ids, s1) ← loadPhase ctx all_data s
      let missing0 := existing_ids.filter (fun i => !(ids.contains i))
      let merged ← findMerges type s1 missing0
      let (s2, missing) ← applyMerges type merged s1 missing0
      if !(missing.isEmpty) && !purge then throw PyErr.cancelTransaction
      else if !(missing.isEmpty) && purge then pure (purgeEntities type missing s2)
      else pure s2)

/-- Completion status of one `to_database` jurisdiction run. -/
inductive RunOutcome where
  | success : RunOutcome
  | cancelled : RunOutcome
  | crashed (e : PyErr) : RunOutcome
deriving DecidableEq, Repr

/-- Process exit status: `sys.exit(1)` on a caught `CancelTransaction`, and
a nonzero interpreter exit on any uncaught exception. -/
def exit_status : RunOutcome → Nat
  | .success => 0
  | .cancelled => 1
  | .crashed _ => 1

def outcomeOf : PyErr → RunOutcome
  | .cancelTransaction => .cancelled
  | e => .crashed e

/-- Embedding of the `transaction.atomic()` block of `to_database` for one
jurisdiction: seed the jurisdiction structure (`create_juris_orgs_posts`,
driven by external reference metadata and therefore a parameter), load the
person directory, load the organization directory, and in safe mode raise
`CancelTransaction` at the end.  Any error rolls the store back to the entry
state; `CancelTransaction` is then caught and turned into `sys.exit(1)`. -/
def to_database_run (ctx : Ctx) (fuel : Nat) (seed : Store → Except PyErr Store)
    (person_files org_files : List (DirData × String)) (jurisdiction_id : String)
    (purge safe : Bool) (s : Store) : Option (RunOutcome × Store) :=
  match seed s with
  | .error e => some (outcomeOf e, s)
  | .ok s1 =>
    match load_directory ctx fuel person_files .person jurisdiction_id purge s1 with
    | none => none
    | some (.error e) => some (outcomeOf e, s)
    | some (.ok s2) =>
      match load_directory ctx fuel org_files .organization jurisdiction_id purge s2 with
      | none => none
      | some (.error e) => some (outcomeOf e, s)
      | some (.ok s3) =>
        if safe then some (.cancelled, s) else some (.success, s3)

/-! ### Basic lemmas about the association-list operations -/

theorem lookupField_setField_self (row : Item) (k : String) (v : Value) :
    lookupField (setField row k v) k = some v := by
  induction row with
  | nil => simp [setField, lookupField]
  | cons kv rest ih =>
    obtain ⟨k', v'⟩ := kv
    by_cases h : k' = k <;> simp [setField, lookupField, h, ih]

theorem lookupField_setField_ne (row : Item) (k k2 : String) (v : Value)
    (h : k2 ≠ k) : lookupField (setField row k v) k2 = lookupField row k2 := by
  induction row with
  | nil => simp [setField, lookupField, Ne.symm h]
  | cons kv rest ih =>
    obtain ⟨k', v'⟩ := kv
    by_cases hk : k' = k
    · subst hk
      simp [setField, lookupField, Ne.symm h]
    · by_cases hk2 : k' = k2 <;> simp [setField, lookupField, h, hk, hk2, ih]

theorem applyUpdates_of_all_eq (data : Item) (row : Item)
    (h : ∀ kv ∈ data, lookupField row kv.1 = some kv.2) :
    applyUpdates row data = (row, false) := by
  induction data with
  | nil => rfl
  | cons kv rest ih =>
    obtain ⟨k, v⟩ := kv
    have hk : lookupField row k = some v := h (k, v) (by simp)
    show applyUpdates row ((k, v) :: rest) = (row, false)
    unfold applyUpdates
    rw [if_neg (by simp [hk])]
    exact ih (fun x hx => h x (by simp [hx]))

theorem applyUpdates_snd (data : Item) (row : Item) :
    (applyUpdates row data).2
      = data.any (fun kv => !(lookupField row kv.1 == some kv.2)) := by
  induction data generalizing row with
  | nil => rfl
  | cons kv rest ih =>
    obtain ⟨k, v⟩ := kv
    show (applyUpdates row ((k, v) :: rest)).2 = _
    unfold applyUpdates
    by_cases h : lookupField row k = some v
    · rw [if_neg (by simp [h])]
      simp [h, ih]
    · rw [if_pos (by simp [h])]
      simp [h]

theorem applyUpdates_lookup_notin (data : Item) (row : Item) (k : String)
    (h : ∀ kv ∈ data, kv.1 ≠ k) :
    lookupField (applyUpdates row data).1 k = lookupField row k := by
  induction data generalizing row with
  | nil => rfl
  | cons kv rest ih =>
    obtain ⟨k1, v1⟩ := kv
    have hk1 : k1 ≠ k := h (k1, v1) (by simp)
    show lookupField (applyUpdates row ((k1, v1) :: rest)).1 k = _
    unfold applyUpdates
    by_cases hc : lookupField row k1 = some v1
    · rw [if_neg (by simp [hc])]
      exact ih row (fun x hx => h x (by simp [hx]))
    · rw [if_pos (by simp [hc])]
      rw [ih (setField row k1 v1) (fun x hx => h x (by simp [hx]))]
      exact lookupField_setField_ne row k1 k v1 (Ne.symm hk1)

theorem applyUpdates_lookup_mem (data : Item) (row : Item)
    (hn : (data.map Prod.fst).Nodup) :
    ∀ kv ∈ data, lookupField (applyUpdates row data).1 kv.1 = some kv.2 := by
  induction data generalizing row with
  | nil => intro kv hkv; simp at hkv
  | cons hd rest ih =>
    obtain ⟨k1, v1⟩ := hd
    have hn' : (rest.map Prod.fst).Nodup := (List.nodup_cons.mp hn).2
    have hk1notin : ∀ x ∈ rest, x.1 ≠ k1 := by
      intro x hx hEq
      exact (List.nodup_cons.mp hn).1 (List.mem_map.mpr ⟨x, hx, hEq⟩)
    intro kv hkv
    rcases List.mem_cons.mp hkv with heq | hmem
    · subst heq
      show lookupField (applyUpdates row ((k1, v1) :: rest)).1 k1 = some v1
      unfold applyUpdates
      by_cases hc : lookupField row k1 = some v1
      · rw [if_neg (by simp [hc])]
        rw [applyUpdates_lookup_notin rest row k1 hk1notin]
        exact hc
      · rw [if_pos (by simp [hc])]
        show lookupField (applyUpdates (setField row k1 v1) rest).1 k1 = some v1
        rw [applyUpdates_lookup_notin rest (setField row k1 v1) k1 hk1notin]
        exact lookupField_setField_self row k1 v1
    · show lookupField (applyUpdates row ((k1, v1) :: rest)).1 kv.1 = some kv.2
      unfold applyUpdates
      by_cases hc : lookupField row k1 = some v1
      · rw [if_neg (by simp [hc])]
        exact ih row hn' kv hmem
      · rw [if_pos (by simp [hc])]
        show lookupField (applyUpdates (setField row k1 v1) rest).1 kv.1 = some kv.2
        exact ih (setField row k1 v1) hn' kv hmem

theorem find?_of_filter_single {α : Type} (p : α → Bool) (l : List α) (a : α)
    (h : l.filter p = [a]) : l.find? p = some a := by
  induction l with
  | nil => simp at h
  | cons x xs ih =>
    by_cases hx : p x
    · rw [List.filter_cons_of_pos hx] at h
      have hxa : x = a := (List.cons.injEq x _ a []).mp h |>.1
      rw [List.find?_cons_of_pos _ hx, hxa]
    · rw [List.filter_cons_of_neg (by simp [hx])] at h
      rw [List.find?_cons_of_neg _ (by simp [hx])]
      exact ih h

theorem find?_map_pred {α : Type} (l : List α) (g : α → α) (p : α → Bool)
    (h : ∀ x, p (g x) = p x) : (l.map g).find? p = (l.find? p).map g := by
  induction l with
  | nil => rfl
  | cons x xs ih =>
    by_cases hx : p x
    · rw [List.map_cons, List.find?_cons_of_pos _ (by rw [h]; exact hx),
        List.find?_cons_of_pos _ hx]
      rfl
    · rw [List.map_cons, List.find?_cons_of_neg _ (by simp [h, hx]),
        List.find?_cons_of_neg _ (by simp [hx]), ih]

theorem find?_append_left {α : Type} (l1 l2 : List α) (p : α → Bool) (a : α)
    (h : l1.find? p = some a) : (l1 ++ l2).find? p = some a := by
  induction l1 with
  | nil => simp [List.find?] at h
  | cons x xs ih =>
    by_cases hx : p x
    · rw [List.find?_cons_of_pos _ hx] at h
      rw [List.cons_append, List.find?_cons_of_pos _ hx]
      exact h
    · rw [List.find?_cons_of_neg _ (by simp [hx])] at h
      rw [List.cons_append, List.find?_cons_of_neg _ (by simp [hx])]
      exact ih h

theorem map_eq_self {α : Type} (l : List α) (f : α → α)
    (h : ∀ a ∈ l, f a = a) : l.map f = l := by
  induction l with
  | nil => rfl
  | cons x xs ih =>
    rw [List.map_cons, h x (by simp), ih (fun a ha => h a (by simp [ha]))]

/-! ### Lemmas about the reconciler -/

/-- The no-change condition: equal counts and every stored item under the
read view matches some desired item field-for-field. -/
def noChange (stored : List Item) (view : Item → Bool) (objs : List Item) : Prop :=
  (stored.filter view).length = objs.length ∧
    ∀ r ∈ stored.filter view, ∃ o ∈ objs, matchesFilter r o = true

instance (stored : List Item) (view : Item → Bool) (objs : List Item) :
    Decidable (noChange stored view objs) := by
  unfold noChange
  infer_instance

theorem subUpdated_eq_false (stored : List Item) (view : Item → Bool)
    (objs : List Item) :
    subUpdated stored view objs = false ↔ noChange stored view objs := by
  unfold subUpdated noChange
  by_cases hlen : (stored.filter view).length = objs.length
  · rw [if_neg (by simp [hlen])]
    simp only [hlen, true_and, Bool.not_eq_false', List.isEmpty_iff,
      List.filter_eq_nil_iff, List.all_eq_true]
    constructor
    · intro h r hr
      have := h r hr
      simp only [not_forall] at this
      obtain ⟨o, ho, hno⟩ := this
      exact ⟨o, ho, by simpa using hno⟩
    · intro h r hr
      obtain ⟨o, ho, hm⟩ := h r hr
      simp only [not_forall]
      exact ⟨o, ho, by simp [hm]⟩
  · rw [if_pos (by simp [hlen])]
    simp [hlen]

theorem update_subobjects_noop (stored : List Item) (view : Item → Bool)
    (objs : List Item) (n : Nat) (h : noChange stored view objs) :
    update_subobjects stored view objs n = (false, stored, n) := by
  unfold update_subobjects
  rw [if_neg]
  rw [Bool.not_eq_true]
  exact (subUpdated_eq_false stored view objs).mpr h

theorem filter_not_view_of_none (stored : List Item) (view : Item → Bool)
    (h : (stored.filter view).length = 0) :
    stored.filter (fun r => !(view r)) = stored := by
  have hnil : stored.filter view = [] := List.length_eq_zero.mp h
  have hall : ∀ r ∈ stored, view r = false := by
    intro r hr
    have := (List.filter_eq_nil_iff.mp hnil) r hr
    simpa using this
  apply List.filter_eq_self.mpr
  intro r hr
  simp [hall r hr]

theorem update_subobjects_changed (stored : List Item) (view : Item → Bool)
    (objs : List Item) (n : Nat) (h : subUpdated stored view objs = true) :
    update_subobjects stored view objs n
      = (true, stored.filter (fun r => !(view r)) ++ objs, n + 1) := by
  unfold update_subobjects
  rw [if_pos h]
  by_cases hc : (stored.filter view).length = 0
  · rw [if_neg (by simp [hc]), filter_not_view_of_none stored view hc]
  · rw [if_pos (by simp [hc])]

theorem subUpdated_eq_true (stored : List Item) (view : Item → Bool)
    (objs : List Item) :
    subUpdated stored view objs = true ↔
      ((stored.filter view).length ≠ objs.length ∨
        ∃ r ∈ stored.filter view, ∀ o ∈ objs, matchesFilter r o = false) := by
  rw [← Bool.not_eq_false, subUpdated_eq_false]
  unfold noChange
  constructor
  · intro h
    by_cases hlen : (stored.filter view).length = objs.length
    · right
      have hnot : ¬ ∀ r ∈ stored.filter view, ∃ o ∈ objs, matchesFilter r o = true :=
        fun hh => h ⟨hlen, hh⟩
      push_neg at hnot
      obtain ⟨r, hr, hno⟩ := hnot
      exact ⟨r, hr, fun o ho => by simpa using hno o ho⟩
    · exact Or.inl hlen
  · rintro (hlen | ⟨r, hr, hno⟩) ⟨h1, h2⟩
    · exact hlen h1
    · obtain ⟨o, ho, hm⟩ := h2 r hr
      rw [hno o ho] at hm
      cases hm

theorem update_subobjects_fst (stored : List Item) (view : Item → Bool)
    (objs : List Item) (n : Nat) :
    (update_subobjects stored view objs n).1 = subUpdated stored view objs := by
  unfold update_subobjects
  by_cases h : subUpdated stored view objs <;> simp [h]

/-! ### Claim theorems -/

/-- C2: `update_subobjects` detects a change iff the stored count under the
read view differs from the desired list's length or some stored item under
the read view has no field-for-field match in the desired list; on any
detected change it deletes every stored item visible under the read view,
inserts every desired item fresh, and bumps the owning entity's
modification timestamp (save counter); otherwise it changes nothing. -/
theorem c2_replace_wholesale (stored : List Item) (view : Item → Bool)
    (objs : List Item) (n : Nat) :
    ((update_subobjects stored view objs n).1 = true ↔
      ((stored.filter view).length ≠ objs.length ∨
        ∃ r ∈ stored.filter view, ∀ o ∈ objs, matchesFilter r o = false)) ∧
    ((update_subobjects stored view objs n).1 = true →
      update_subobjects stored view objs n
        = (true, stored.filter (fun r => !(view r)) ++ objs, n + 1)) ∧
    ((update_subobjects stored view objs n).1 = false →
      update_subobjects stored view objs n = (false, stored, n)) := by
  refine ⟨?_, ?_, ?_⟩
  · rw [update_subobjects_fst]
    exact subUpdated_eq_true stored view objs
  · intro h
    rw [update_subobjects_fst] at h
    exact update_subobjects_changed stored view objs n h
  · intro h
    rw [update_subobjects_fst] at h
    exact update_subobjects_noop stored view objs n
      ((subUpdated_eq_false stored view objs).mp h)

/-- C2 witness: a one-item stored list against a different desired item is a
change: the stored item is deleted, the desired item inserted, and the save
counter bumped. -/
theorem c2_replace_wholesale_witness :
    update_subobjects [[("url", Value.vstr "a")]] (fun _ => true)
      [[("url", Value.vstr "b")]] 5
      = (true, [[("url", Value.vstr "b")]], 6) :=
  (c2_replace_wholesale [[("url", Value.vstr "a")]] (fun _ => true)
    [[("url", Value.vstr "b")]] 5).2.1 (by decide)

/-- C9: when counts are equal and every stored item under the read view
matches some desired item field-for-field, `update_subobjects` reports no
update and performs no writes; no one-to-one matching between stored and
desired items is required. -/
theorem c9_no_bijection_required (stored : List Item) (view : Item → Bool)
    (objs : List Item) (n : Nat)
    (hlen : (stored.filter view).length = objs.length)
    (hmatch : ∀ r ∈ stored.filter view, ∃ o ∈ objs, matchesFilter r o = true) :
    update_subobjects stored view objs n = (false, stored, n) :=
  update_subobjects_noop stored view objs n ⟨hlen, hmatch⟩

/-- C9 witness: duplicate stored items both match the first desired item and
the second desired item matches nothing stored, yet counts line up and no
update is reported. -/
theorem c9_no_bijection_required_witness :
    update_subobjects [[("url", Value.vstr "x")], [("url", Value.vstr "x")]]
      (fun _ => true)
      [[("url", Value.vstr "x")], [("url", Value.vstr "y")]] 7
      = (false, [[("url", Value.vstr "x")], [("url", Value.vstr "x")]], 7) :=
  c9_no_bijection_required
    [[("url", Value.vstr "x")], [("url", Value.vstr "x")]] (fun _ => true)
    [[("url", Value.vstr "x")], [("url", Value.vstr "y")]] 7
    (by decide) (by decide)

theorem pyBind_ok {α β : Type} (a : α) (f : α → Except PyErr β) :
    (Except.ok a >>= f) = f a := rfl

theorem applyUpdates_eq_self_of_snd_false (data : Item) (row : Item)
    (h : (applyUpdates row data).2 = false) : applyUpdates row data = (row, false) := by
  rw [applyUpdates_snd] at h
  apply applyUpdates_of_all_eq
  intro kv hkv
  by_contra hne
  have hx : data.any (fun kv => !(lookupField row kv.1 == some kv.2)) = true :=
    List.any_eq_true.mpr ⟨kv, hkv, by simp [hne]⟩
  rw [h] at hx
  cases hx

/-- C3: `get_update_or_create` with a full field mapping and a lookup key:
if no row matches the lookup key it creates a row with all given fields and
returns `(entity, created=true, updated=false)` without raising; if exactly
one row matches, it compares every field of the mapping to the stored value,
writes and persists exactly when some field differs, and returns
`(entity, created=false, updated = some field changed)`, touching no other
row. -/
theorem c3_upsert_contract (rows : List Item) (data : Item)
    (keys : List String) (kwargs : Item)
    (hnodup : (data.map Prod.fst).Nodup)
    (hkw : buildKwargs data keys = .ok kwargs) :
    (rows.filter (fun r => matchesFilter r kwargs) = [] →
      get_update_or_create rows data keys = .ok (data, true, false, rows ++ [data])) ∧
    (∀ r, rows.filter (fun q => matchesFilter q kwargs) = [r] →
      ∃ entity updated rows2,
        get_update_or_create rows data keys = .ok (entity, false, updated, rows2) ∧
        (updated = true ↔ ∃ kv ∈ data, lookupField r kv.1 ≠ some kv.2) ∧
        (updated = false → entity = r ∧ rows2 = rows) ∧
        (updated = true →
          (∀ kv ∈ data, lookupField entity kv.1 = some kv.2) ∧
          (∀ k, (∀ kv ∈ data, kv.1 ≠ k) → lookupField entity k = lookupField r k) ∧
          rows2 = rows.map (fun q => if matchesFilter q kwargs then entity else q))) := by
  constructor
  · intro hf
    simp only [get_update_or_create, hkw, pyBind_ok, hf]
  · intro r hf
    by_cases hupd : (applyUpdates r data).2 = true
    · refine ⟨(applyUpdates r data).1, true,
        rows.map (fun q => if matchesFilter q kwargs then (applyUpdates r data).1 else q),
        ?_, ?_, ?_, ?_⟩
      · simp only [get_update_or_create, hkw, pyBind_ok, hf, hupd, if_true]
      · simp only [true_iff]
        rw [applyUpdates_snd] at hupd
        obtain ⟨kv, hkv, hne⟩ := List.any_eq_true.mp hupd
        exact ⟨kv, hkv, by simpa using hne⟩
      · intro hfalse; cases hfalse
      · intro _
        exact ⟨applyUpdates_lookup_mem data r hnodup,
          fun k hk => applyUpdates_lookup_notin data r k hk, rfl⟩
    · rw [Bool.not_eq_true] at hupd
      have heq : applyUpdates r data = (r, false) :=
        applyUpdates_eq_self_of_snd_false data r hupd
      refine ⟨r, false, rows, ?_, ?_, fun _ => ⟨rfl, rfl⟩, ?_⟩
      · simp [get_update_or_create, hkw, pyBind_ok, hf, heq]
      · constructor
        · intro h; cases h
        · rintro ⟨kv, hkv, hne⟩
          rw [applyUpdates_snd] at hupd
          have hx : data.any (fun kv => !(lookupField r kv.1 == some kv.2)) = true :=
            List.any_eq_true.mpr ⟨kv, hkv, by simp [hne]⟩
          rw [hupd] at hx
          cases hx
      · intro htrue; cases htrue

/-- C3 witness: creating a fresh entity in an empty table returns
`(entity, created=true, updated=false)` with the row inserted. -/
theorem c3_upsert_contract_witness :
    get_update_or_create [] [("id", Value.vstr "x"), ("name", Value.vstr "n")] ["id"]
      = .ok ([("id", Value.vstr "x"), ("name", Value.vstr "n")], true, false,
          [[("id", Value.vstr "x"), ("name", Value.vstr "n")]]) :=
  (c3_upsert_contract [] [("id", Value.vstr "x"), ("name", Value.vstr "n")] ["id"]
      [("id", Value.vstr "x")] (by decide) (by rfl)).1 (by rfl)

/-! ### No-op lemmas for the loaders -/

theorem buildKwargs_personFields (d : PersonData) :
    buildKwargs (personFields d) ["id"] = .ok [("id", Value.vstr d.id)] := by
  simp [buildKwargs, personFields, lookupField, Except.map]

theorem buildKwargs_orgFields (d : OrgData) (parent : Value) :
    buildKwargs (orgFields d parent) ["id"] = .ok [("id", Value.vstr d.id)] := by
  simp [buildKwargs, orgFields, lookupField, Except.map]

theorem person_guoc_noop (persons : List PersonRow) (d : PersonData) (p : PersonRow)
    (hfind : persons.filter (fun q => matchesFilter q.fields [("id", Value.vstr d.id)]) = [p])
    (hfields : ∀ kv ∈ personFields d, lookupField p.fields kv.1 = some kv.2) :
    person_guoc persons (personFields d) = .ok (false, false, persons) := by
  have heq := applyUpdates_of_all_eq (personFields d) p.fields hfields
  simp [person_guoc, buildKwargs_personFields, pyBind_ok, hfind, heq]

theorem org_guoc_noop (orgs : List OrgRow) (d : OrgData) (parent : Value) (o : OrgRow)
    (hfind : orgs.filter (fun q => matchesFilter q.fields [("id", Value.vstr d.id)]) = [o])
    (hfields : ∀ kv ∈ orgFields d parent, lookupField o.fields kv.1 = some kv.2) :
    org_guoc orgs (orgFields d parent) = .ok (false, false, orgs) := by
  have heq := applyUpdates_of_all_eq (orgFields d parent) o.fields hfields
  simp [org_guoc, buildKwargs_orgFields, pyBind_ok, hfind, heq]

theorem person_sub_pass_noop (persons : List PersonRow) (idv : Value)
    (get : PersonRow → List Item) (set : PersonRow → List Item → PersonRow)
    (view : Item → Bool) (objs : List Item) (p : PersonRow)
    (hfind : persons.filter (fun q => matchesFilter q.fields [("id", idv)]) = [p])
    (h : noChange (get p) view objs) :
    person_sub_pass persons idv get set view objs = (false, persons) := by
  have hf : persons.find? (fun q => matchesFilter q.fields [("id", idv)]) = some p :=
    find?_of_filter_single _ persons p hfind
  simp only [person_sub_pass, hf]
  rw [update_subobjects_noop (get p) view objs p.saves h]
  simp

theorem org_sub_pass_noop (orgs : List OrgRow) (idv : Value)
    (get : OrgRow → List Item) (set : OrgRow → List Item → OrgRow)
    (view : Item → Bool) (objs : List Item) (o : OrgRow)
    (hfind : orgs.filter (fun q => matchesFilter q.fields [("id", idv)]) = [o])
    (h : noChange (get o) view objs) :
    org_sub_pass orgs idv get set view objs = (false, orgs) := by
  have hf : orgs.find? (fun q => matchesFilter q.fields [("id", idv)]) = some o :=
    find?_of_filter_single _ orgs o hfind
  simp only [org_sub_pass, hf]
  rw [update_subobjects_noop (get o) view objs o.saves h]
  simp

/-- C1: sub-collection reconciliation is idempotent.  When the stored state
already matches the input — the person or organization row's scalar fields
agree with the derived field mapping and every sub-collection satisfies the
no-change condition against the derived desired list (committee-excluding
read view for person memberships) — `load_person` and `load_org` perform no
writes and no save-counter bump and return `(created=false, updated=false)`;
in particular `update_subobjects` returns `false` and issues no delete,
create or save when the stored items under the read view match the desired
list and the counts are equal. -/
theorem c1_idempotence :
    (∀ (ctx : Ctx) (d : PersonData) (s : Store) (p : PersonRow) (ms : List Item),
      s.persons.filter (fun q => matchesFilter q.fields [("id", Value.vstr d.id)]) = [p] →
      (∀ kv ∈ personFields d, lookupField p.fields kv.1 = some kv.2) →
      noChange p.other_names (fun _ => true) d.other_names →
      noChange p.links (fun _ => true) d.links →
      noChange p.sources (fun _ => true) d.sources →
      noChange p.identifiers (fun _ => true) (personIdentifiers d) →
      noChange p.contact_details (fun _ => true) (personContactDetails d) →
      buildMemberships ctx d s.orgs = .ok ms →
      noChange p.memberships (fun m => !(isCommittee m)) ms →
      load_person ctx d s = .ok (false, false, s)) ∧
    (∀ (d : OrgData) (s : Store) (parent o : OrgRow) (ms : List Item),
      parentLookup d s.orgs = .ok parent →
      s.orgs.filter (fun q => matchesFilter q.fields [("id", Value.vstr d.id)]) = [o] →
      (∀ kv ∈ orgFields d (orgRef parent), lookupField o.fields kv.1 = some kv.2) →
      noChange o.links (fun _ => true) d.links →
      noChange o.sources (fun _ => true) d.sources →
      buildOrgMemberships d s.persons = .ok ms →
      noChange o.memberships (fun _ => true) ms →
      load_org d s = .ok (false, false, s)) ∧
    (∀ (stored : List Item) (view : Item → Bool) (objs : List Item) (n : Nat),
      noChange stored view objs →
      update_subobjects stored view objs n = (false, stored, n)) := by
  refine ⟨?_, ?_, ?_⟩
  · intro ctx d s p ms hfind hfields h1 h2 h3 h4 h5 hms h6
    have e0 := person_guoc_noop s.persons d p hfind hfields
    have e1 := person_sub_pass_noop s.persons (Value.vstr d.id) (fun p => p.other_names)
      (fun p l => { p with other_names := l }) (fun _ => true) d.other_names p hfind h1
    have e2 := person_sub_pass_noop s.persons (Value.vstr d.id) (fun p => p.links)
      (fun p l => { p with links := l }) (fun _ => true) d.links p hfind h2
    have e3 := person_sub_pass_noop s.persons (Value.vstr d.id) (fun p => p.sources)
      (fun p l => { p with sources := l }) (fun _ => true) d.sources p hfind h3
    have e4 := person_sub_pass_noop s.persons (Value.vstr d.id) (fun p => p.identifiers)
      (fun p l => { p with identifiers := l }) (fun _ => true) (personIdentifiers d) p hfind h4
    have e5 := person_sub_pass_noop s.persons (Value.vstr d.id) (fun p => p.contact_details)
      (fun p l => { p with contact_details := l }) (fun _ => true) (personContactDetails d) p hfind h5
    have e6 := person_sub_pass_noop s.persons (Value.vstr d.id) (fun p => p.memberships)
      (fun p l => { p with memberships := l }) (fun m => !(isCommittee m)) ms p hfind h6
    simp only [load_person, e0, pyBind_ok, e1, e2, e3, e4, e5, hms, e6, Bool.or_self]
    rfl
  · intro d s parent o ms hpar hfind hfields h1 h2 hms h3
    have e0 := org_guoc_noop s.orgs d (orgRef parent) o hfind hfields
    have e1 := org_sub_pass_noop s.orgs (Value.vstr d.id) (fun o => o.links)
      (fun o l => { o with links := l }) (fun _ => true) d.links o hfind h1
    have e2 := org_sub_pass_noop s.orgs (Value.vstr d.id) (fun o => o.sources)
      (fun o l => { o with sources := l }) (fun _ => true) d.sources o hfind h2
    have e3 := org_sub_pass_noop s.orgs (Value.vstr d.id) (fun o => o.memberships)
      (fun o l => { o with memberships := l }) (fun _ => true) ms o hfind h3
    simp only [load_org, hpar, pyBind_ok, e0, e1, e2, hms, e3, Bool.or_self]
    rfl
  · intro stored view objs n h
    exact update_subobjects_noop stored view objs n h

/-! ### Concrete witness data -/

def ctxW : Ctx := ⟨fun _ _ => []⟩

def wPartyOrg : OrgRow :=
  { fields := [("id", Value.vstr "ocd-organization/dem"), ("name", Value.vstr "Democratic"),
               ("classification", Value.vstr "party")] }

def wPersonData : PersonData :=
  { id := "p1", name := "Jane Smith", links := [[("url", Value.vstr "https://x")]],
    party := [{ name := "Democratic" }] }

def wMembership : Item :=
  [("organization", Value.vorg "ocd-organization/dem" "party" ""),
   ("start_date", Value.vstr ""), ("end_date", Value.vstr "")]

def wPerson : PersonRow :=
  { fields := personFields wPersonData,
    links := [[("url", Value.vstr "https://x")]],
    memberships := [wMembership],
    saves := 2 }

def wStore : Store := { persons := [wPerson], orgs := [wPartyOrg], sponsorships := [] }

def wParentOrg : OrgRow :=
  { fields := [("id", Value.vstr "ocd-organization/low"), ("name", Value.vstr "House"),
               ("classification", Value.vstr "lower"), ("jurisdiction_id", Value.vstr "j")] }

def wOrgData : OrgData :=
  { id := "ocd-organization/fin", name := "Finance", parent := "lower",
    jurisdiction := "j", classification := "committee",
    memberships := [{ name := "Jane Smith" }] }

def wOrgMem : Item :=
  [("person", Value.vnone), ("person_name", Value.vstr "Jane Smith"),
   ("role", Value.vstr "member"), ("start_date", Value.vstr ""), ("end_date", Value.vstr "")]

def wOrg : OrgRow :=
  { fields := orgFields wOrgData (orgRef wParentOrg),
    memberships := [wOrgMem], saves := 1 }

def wStore2 : Store := { persons := [], orgs := [wParentOrg, wOrg], sponsorships := [] }

/-- C1 witness: a person with a link and a party membership reloaded
unchanged, a committee organization reloaded unchanged, and a matching
one-item sub-collection, all produce no update and identical stores. -/
theorem c1_idempotence_witness :
    load_person ctxW wPersonData wStore = .ok (false, false, wStore) ∧
    load_org wOrgData wStore2 = .ok (false, false, wStore2) ∧
    update_subobjects [wMembership] (fun _ => true) [wMembership] 4
      = (false, [wMembership], 4) :=
  ⟨c1_idempotence.1 ctxW wPersonData wStore wPerson [wMembership] (by decide) (by decide)
      (by decide) (by decide) (by decide) (by decide) (by decide) (by rfl) (by decide),
   c1_idempotence.2.1 wOrgData wStore2 wParentOrg wOrg [wOrgMem] (by rfl) (by decide)
      (by decide) (by decide) (by decide) (by rfl) (by decide),
   c1_idempotence.2.2 [wMembership] (fun _ => true) [wMembership] 4 (by decide)⟩

/-! ### Termination behaviour of the organization sort -/

theorem onePassStep_sum (acc : SortState) (of : OrgData × String) :
    (onePassStep acc of).order.length + (onePassStep acc of).rem.length
      = acc.order.length + acc.rem.length + 1 := by
  unfold onePassStep
  by_cases h : sortEligible acc.seen of.1 <;> simp [h] <;> omega

theorem foldl_onePassStep_sum (l : List (OrgData × String)) :
    ∀ acc : SortState,
      (l.foldl onePassStep acc).order.length + (l.foldl onePassStep acc).rem.length
        = acc.order.length + acc.rem.length + l.length := by
  induction l with
  | nil => intro acc; simp
  | cons x xs ih =>
    intro acc
    rw [List.foldl_cons, ih (onePassStep acc x)]
    rw [onePassStep_sum]
    simp
    omega

theorem onePass_sum (st : SortState) :
    (onePass st).order.length + (onePass st).rem.length
      = st.order.length + st.rem.length := by
  unfold onePass
  rw [foldl_onePassStep_sum]
  simp

theorem sortLoop_length (fuel : Nat) :
    ∀ (st : SortState) (out : List (OrgData × String)),
      sortLoop fuel st = some out →
      out.length = st.order.length + st.rem.length := by
  induction fuel with
  | zero => intro st out h; cases h
  | succ n ih =>
    intro st out h
    unfold sortLoop at h
    by_cases hre : st.rem.isEmpty
    · rw [if_pos hre] at h
      have hnil : st.rem = [] := List.isEmpty_iff.mp hre
      cases h
      simp [hnil]
    · rw [if_neg hre] at h
      have hlen := ih (onePass st) out h
      rw [onePass_sum st] at hlen
      exact hlen

def cycOrgA : OrgData :=
  { id := "ocd-organization/a", name := "A", parent := "ocd-organization/b",
    jurisdiction := "j", classification := "committee" }

def cycOrgB : OrgData :=
  { id := "ocd-organization/b", name := "B", parent := "ocd-organization/a",
    jurisdiction := "j", classification := "committee" }

/-- A batch whose two organizations name each other as parents. -/
def cycBatch : List (OrgData × String) := [(cycOrgA, "a.yml"), (cycOrgB, "b.yml")]

/-- C4 counterexample: on the two-organization parent cycle, a full pass of
the sort moves nothing — the working set is a fixpoint with records left —
and running `sort_organizations` with 100 passes of fuel reaches neither a
result nor the size assertion: the claimed fatal assertion violation does
not happen; the loop simply never terminates. -/
theorem c4_sort_assert_counterexample :
    onePass { seen := [], order := [], rem := cycBatch }
      = { seen := [], order := [], rem := cycBatch } ∧
    sort_organizations 100 cycBatch = none := by
  constructor
  · decide
  · decide

/-- C4 (amended): a batch that cannot be fully ordered — a parent cycle or
a batch-internal parent id that never appears — makes `sort_organizations`
loop forever rather than fail: once a pass moves nothing while records
remain, no amount of fuel terminates the loop; and the size assertion can
never fire at all, since any terminating run returns an order containing
every input record. -/
theorem c4_sort_diverges_never_asserts :
    (∀ (fuel : Nat) (st : SortState), onePass st = st → st.rem ≠ [] →
      sortLoop fuel st = none) ∧
    (∀ (fuel : Nat) (orgs : List (OrgData × String)) (res : SortResult),
      sort_organizations fuel orgs = some res →
      ∃ order, res = .ok order ∧ order.length = orgs.length) := by
  constructor
  · intro fuel
    induction fuel with
    | zero => intro st hfix hne; rfl
    | succ n ih =>
      intro st hfix hne
      unfold sortLoop
      rw [if_neg (by simpa [List.isEmpty_iff] using hne)]
      rw [hfix]
      exact ih st hfix hne
  · intro fuel orgs res h
    unfold sort_organizations at h
    cases hl : sortLoop fuel { seen := [], order := [], rem := orgs } with
    | none => rw [hl] at h; cases h
    | some out =>
      rw [hl] at h
      have hlen := sortLoop_length fuel _ out hl
      simp at hlen
      simp [hlen] at h
      exact ⟨out, h.symm, hlen⟩

def goodOrgA : OrgData :=
  { id := "ocd-organization/a", name := "A", parent := "lower",
    jurisdiction := "j", classification := "committee" }

def goodOrgB : OrgData :=
  { id := "ocd-organization/b", name := "B", parent := "ocd-organization/a",
    jurisdiction := "j", classification := "committee" }

/-- C4 witness: the cyclic batch diverges at any fuel (shown at 37), and a
well-founded batch given in reverse order terminates with a full-size
order. -/
theorem c4_sort_diverges_witness :
    sortLoop 37 { seen := [], order := [], rem := cycBatch } = none ∧
    (∃ order, SortResult.ok [(goodOrgA, "a.yml"), (goodOrgB, "b.yml")] = .ok order ∧
      order.length = [(goodOrgB, "b.yml"), (goodOrgA, "a.yml")].length) :=
  ⟨c4_sort_diverges_never_asserts.1 37 { seen := [], order := [], rem := cycBatch }
      (by decide) (by decide),
   c4_sort_diverges_never_asserts.2 10 [(goodOrgB, "b.yml"), (goodOrgA, "a.yml")]
      (SortResult.ok [(goodOrgA, "a.yml"), (goodOrgB, "b.yml")]) (by decide)⟩

/-- A person record carrying an executive (governor) role, as the
repository's own test suite loads. -/
def govPersonData : PersonData :=
  { id := "p9", name := "Gov Example",
    roles := [{ type := "governor",
                jurisdiction := "ocd-jurisdiction/country:us/state:nc/government" }] }

/-- C5: the claim (backed by the repository's own tests
`test_person_governor_role` and `test_person_mayor_role`) says an executive
role resolves to the jurisdiction's executive organization with a fixed
title; but the roles loop of `load_person` handles only the types
upper/lower/legislature and hits `raise ValueError("unsupported role type")`
for a governor or mayor role, so the load fails instead of resolving. -/
theorem c5_governor_role_value_error :
    load_person ctxW govPersonData wStore = .error .valueError := by
  rfl

theorem pyBind_err {α β : Type} (e : PyErr) (f : α → Except PyErr β) :
    ((Except.error e : Except PyErr α) >>= f) = .error e := rfl

/-- C10: in an organization batch, as soon as merge detection finds any
candidate (a missing id carried as an "openstates"-scheme identifier by a
stored organization), the merge-application loop references
`BillSponsorship`, which is imported only in the person branch of
`load_directory`; the run dies with an unhandled name error instead of the
cancellation signal, so an organization merge never completes. -/
theorem c10_org_merge_name_error (ctx : Ctx) (fuel : Nat)
    (files : List (DirData × String)) (jurisdiction_id : String) (purge : Bool)
    (s : Store) (all_data : List (DirData × String)) (ids : List String)
    (s1 : Store) (old new : String) (rest : List (String × String))
    (hsort : sortPhase fuel files .organization = some (.ok all_data))
    (hload : loadPhase ctx all_data s = .ok (ids, s1))
    (hmerge : findMerges .organization s1
        ((existingIds .organization jurisdiction_id s).filter (fun i => !(ids.contains i)))
      = .ok ((old, new) :: rest)) :
    load_directory ctx fuel files .organization jurisdiction_id purge s
      = some (.error .nameError) := by
  simp only [load_directory, hsort, hload, pyBind_ok, hmerge, applyMerges, pyBind_err]

def wComNewData : OrgData :=
  { id := "ocd-organization/new", name := "Fin", parent := "lower",
    jurisdiction := "j", classification := "committee" }

def wComNew : OrgRow :=
  { fields := orgFields wComNewData (orgRef wParentOrg),
    identifiers := [[("identifier", Value.vstr "ocd-organization/old"),
                     ("scheme", Value.vstr "openstates")]] }

def wComOld : OrgRow :=
  { fields := [("id", Value.vstr "ocd-organization/old"), ("name", Value.vstr "OldCom"),
               ("classification", Value.vstr "committee"), ("jurisdiction_id", Value.vstr "j")] }

def wMergeFiles : List (DirData × String) := [(DirData.organization wComNewData, "f.yml")]

def wMergeStore : Store :=
  { persons := [], orgs := [wParentOrg, wComNew, wComOld], sponsorships := [] }

/-- The state of the store after the load loop of the C10 witness batch. -/
def wMergeLoaded : List String × Store :=
  match loadPhase ctxW wMergeFiles wMergeStore with
  | .ok r => r
  | .error _ => ([], wMergeStore)

/-- C10 witness: a committee absent from the batch but carried as an
"openstates" identifier of a present committee makes the organization
directory load die with a name error. -/
theorem c10_org_merge_name_error_witness :
    load_directory ctxW 3 wMergeFiles .organization "j" false wMergeStore
      = some (.error .nameError) :=
  c10_org_merge_name_error ctxW 3 wMergeFiles "j" false wMergeStore
    wMergeFiles wMergeLoaded.1 wMergeLoaded.2
    "ocd-organization/old" "ocd-organization/new" [] (by rfl) (by rfl) (by rfl)

/-- C6: the missing-id gate of `load_directory` and its transaction-level
consequences.  After merge resolution, if missing ids remain: without purge
the run raises the fatal cancellation (and the surrounding transaction rolls
the store back to its entry state, exiting 1); with purge exactly the
remaining missing-id entities are deleted from the store and, when every
directory succeeds and safe mode is off, the run commits with exit 0. -/
theorem c6_missing_id_gate :
    (∀ (ctx : Ctx) (fuel : Nat) (files : List (DirData × String)) (type : DirType)
        (jurisdiction_id : String) (s : Store) (all_data : List (DirData × String))
        (ids : List String) (s1 : Store) (merged : List (String × String))
        (s2 : Store) (missing : List String),
      sortPhase fuel files type = some (.ok all_data) →
      loadPhase ctx all_data s = .ok (ids, s1) →
      findMerges type s1 ((existingIds type jurisdiction_id s).filter
        (fun i => !(ids.contains i))) = .ok merged →
      applyMerges type merged s1 ((existingIds type jurisdiction_id s).filter
        (fun i => !(ids.contains i))) = .ok (s2, missing) →
      missing ≠ [] →
      load_directory ctx fuel files type jurisdiction_id false s
          = some (.error .cancelTransaction) ∧
        load_directory ctx fuel files type jurisdiction_id true s
          = some (.ok (purgeEntities type missing s2))) ∧
    (∀ (ctx : Ctx) (fuel : Nat) (seed : Store → Except PyErr Store)
        (pf orgf : List (DirData × String)) (jurisdiction_id : String)
        (purge : Bool) (s s1 s2 : Store),
      seed s = .ok s1 →
      load_directory ctx fuel pf .person jurisdiction_id purge s1 = some (.ok s2) →
      load_directory ctx fuel orgf .organization jurisdiction_id purge s2
        = some (.error .cancelTransaction) →
      to_database_run ctx fuel seed pf orgf jurisdiction_id purge false s
          = some (.cancelled, s) ∧ exit_status .cancelled = 1) ∧
    (∀ (ctx : Ctx) (fuel : Nat) (seed : Store → Except PyErr Store)
        (pf orgf : List (DirData × String)) (jurisdiction_id : String)
        (purge : Bool) (s s1 s2 s3 : Store),
      seed s = .ok s1 →
      load_directory ctx fuel pf .person jurisdiction_id purge s1 = some (.ok s2) →
      load_directory ctx fuel orgf .organization jurisdiction_id purge s2 = some (.ok s3) →
      to_database_run ctx fuel seed pf orgf jurisdiction_id purge false s
          = some (.success, s3) ∧ exit_status .success = 0) := by
  refine ⟨?_, ?_, ?_⟩
  · intro ctx fuel files type jurisdiction_id s all_data ids s1 merged s2 missing
      hsort hload hmerge happ hne
    have hemp : missing.isEmpty = false := by
      rw [Bool.eq_false_iff]
      intro hx
      exact hne (List.isEmpty_iff.mp hx)
    constructor
    · simp only [load_directory, hsort, hload, pyBind_ok, hmerge, happ]
      simp only [hemp, Bool.not_false, Bool.and_self, if_true]
      rfl
    · simp only [load_directory, hsort, hload, pyBind_ok, hmerge, happ]
      simp only [hemp, Bool.not_false, Bool.not_true, Bool.and_false, Bool.and_true,
        if_false, if_true]
      rfl
  · intro ctx fuel seed pf orgf jurisdiction_id purge s s1 s2 hseed hp ho
    refine ⟨?_, rfl⟩
    simp only [to_database_run, hseed, hp, ho, outcomeOf]
  · intro ctx fuel seed pf orgf jurisdiction_id purge s s1 s2 s3 hseed hp ho
    refine ⟨?_, rfl⟩
    simp only [to_database_run, hseed, hp, ho]
    rfl

/-- A stored committee organization that will be absent from the batch. -/
def wComMissing : OrgRow :=
  { fields := [("id", Value.vstr "ocd-organization/gone"), ("name", Value.vstr "Gone"),
               ("classification", Value.vstr "committee"), ("jurisdiction_id", Value.vstr "j")] }

def wGateStore : Store := { persons := [], orgs := [wComMissing], sponsorships := [] }

/-- C6 witness: an empty batch against a store holding one committee of the
jurisdiction: without purge the directory load cancels and the transaction
run ends cancelled on the entry store with exit status 1; with purge exactly
that committee is removed and the run commits with exit status 0. -/
theorem c6_missing_id_gate_witness :
    (load_directory ctxW 2 [] .organization "j" false wGateStore
        = some (.error .cancelTransaction) ∧
      load_directory ctxW 2 [] .organization "j" true wGateStore
        = some (.ok (purgeEntities .organization ["ocd-organization/gone"] wGateStore))) ∧
    (to_database_run ctxW 2 Except.ok [] [] "j" false false wGateStore
        = some (.cancelled, wGateStore) ∧ exit_status .cancelled = 1) ∧
    (to_database_run ctxW 2 Except.ok [] [] "j" true false wGateStore
        = some (.success, purgeEntities .organization ["ocd-organization/gone"] wGateStore) ∧
      exit_status .success = 0) :=
  ⟨c6_missing_id_gate.1 ctxW 2 [] .organization "j" wGateStore [] [] wGateStore []
      wGateStore ["ocd-organization/gone"] (by rfl) (by rfl) (by rfl) (by rfl) (by decide),
   (c6_missing_id_gate.2.1 ctxW 2 Except.ok [] [] "j" false wGateStore wGateStore wGateStore
      (by rfl) (by rfl) (by rfl)),
   (c6_missing_id_gate.2.2 ctxW 2 Except.ok [] [] "j" true wGateStore wGateStore wGateStore
      (purgeEntities .organization ["ocd-organization/gone"] wGateStore)
      (by rfl) (by rfl) (by rfl))⟩

/-- C7 counterexample: with empty directories, an empty store and no fatal
condition anywhere, a safe-mode (dry) run is cancelled with the store rolled
back — but the process exit status is 1, not the 0 the claim asserts. -/
theorem c7_safe_mode_counterexample :
    to_database_run ctxW 2 Except.ok [] [] "j" false true
        { persons := [], orgs := [], sponsorships := [] }
      = some (.cancelled, { persons := [], orgs := [], sponsorships := [] }) ∧
    exit_status .cancelled ≠ 0 :=
  ⟨rfl, by decide⟩

/-- C7 (amended): a dry run is implemented with the same cancellation
mechanism as a fatal error and rolls every write back (the run ends on the
entry store), but it is also reported like a failure: the caught
cancellation triggers `sys.exit(1)`, so the exit status is 1 even when no
genuine fatal condition occurred.  The same run without safe mode commits
its final store and exits 0. -/
theorem c7_safe_mode_exits_one :
    ∀ (ctx : Ctx) (fuel : Nat) (seed : Store → Except PyErr Store)
      (pf orgf : List (DirData × String)) (jurisdiction_id : String)
      (purge : Bool) (s s1 s2 s3 : Store),
      seed s = .ok s1 →
      load_directory ctx fuel pf .person jurisdiction_id purge s1 = some (.ok s2) →
      load_directory ctx fuel orgf .organization jurisdiction_id purge s2 = some (.ok s3) →
      (to_database_run ctx fuel seed pf orgf jurisdiction_id purge true s
          = some (.cancelled, s) ∧
        exit_status .cancelled = 1 ∧
        to_database_run ctx fuel seed pf orgf jurisdiction_id purge false s
          = some (.success, s3)) := by
  intro ctx fuel seed pf orgf jurisdiction_id purge s s1 s2 s3 hseed hp ho
  refine ⟨?_, rfl, ?_⟩
  · simp only [to_database_run, hseed, hp, ho]
    rfl
  · simp only [to_database_run, hseed, hp, ho]
    rfl

/-- C7 witness: the amended behaviour at a concrete benign input. -/
theorem c7_safe_mode_exits_one_witness :
    to_database_run ctxW 2 Except.ok [] [] "j" false true
        { persons := [], orgs := [], sponsorships := [] }
      = some (.cancelled, { persons := [], orgs := [], sponsorships := [] }) ∧
    exit_status .cancelled = 1 ∧
    to_database_run ctxW 2 Except.ok [] [] "j" false false
        { persons := [], orgs := [], sponsorships := [] }
      = some (.success, { persons := [], orgs := [], sponsorships := [] }) :=
  c7_safe_mode_exits_one ctxW 2 Except.ok [] [] "j" false
    { persons := [], orgs := [], sponsorships := [] }
    { persons := [], orgs := [], sponsorships := [] }
    { persons := [], orgs := [], sponsorships := [] }
    { persons := [], orgs := [], sponsorships := [] }
    (by rfl) (by rfl) (by rfl)

/-! ### Frame lemmas: the committee read view protects committee rows -/

theorem find?_map_pred_mem {α : Type} (l : List α) (g : α → α) (p : α → Bool)
    (h : ∀ x ∈ l, p (g x) = p x) : (l.map g).find? p = (l.find? p).map g := by
  induction l with
  | nil => rfl
  | cons x xs ih =>
    have hx := h x (by simp)
    by_cases hpx : p x
    · rw [List.map_cons, List.find?_cons_of_pos _ (by rw [hx]; exact hpx),
        List.find?_cons_of_pos _ hpx]
      rfl
    · rw [List.map_cons, List.find?_cons_of_neg _ (by simp [hx, hpx]),
        List.find?_cons_of_neg _ (by simp [hpx]),
        ih (fun y hy => h y (by simp [hy]))]

theorem filter_map_pred_mem {α : Type} (l : List α) (g : α → α) (p : α → Bool)
    (h : ∀ x ∈ l, p (g x) = p x) : (l.map g).filter p = (l.filter p).map g := by
  induction l with
  | nil => rfl
  | cons x xs ih =>
    have hx := h x (by simp)
    by_cases hpx : p x
    · rw [List.map_cons, List.filter_cons_of_pos (by rw [hx]; exact hpx),
        List.filter_cons_of_pos hpx, List.map_cons,
        ih (fun y hy => h y (by simp [hy]))]
    · rw [List.map_cons, List.filter_cons_of_neg (by simp [hx, hpx]),
        List.filter_cons_of_neg (by simp [hpx]),
        ih (fun y hy => h y (by simp [hy]))]

theorem orgsGet_matches (orgs : List OrgRow) (kwargs : Item) (o : OrgRow)
    (h : orgsGet orgs kwargs = .ok o) : matchesFilter o.fields kwargs = true := by
  unfold orgsGet at h
  cases hf : orgs.filter (fun q => matchesFilter q.fields kwargs) with
  | nil => rw [hf] at h; cases h
  | cons a rest =>
    cases rest with
    | nil =>
      rw [hf] at h
      have hao : a = o := by cases h; rfl
      have ha : a ∈ orgs.filter (fun q => matchesFilter q.fields kwargs) := by
        rw [hf]; simp
      rw [← hao]
      exact (List.mem_filter.mp ha).2
    | cons b r2 => rw [hf] at h; cases h

theorem matchesFilter_lookup (row : Item) (obj : Item) (kv : String × Value)
    (h : matchesFilter row obj = true) (hkv : kv ∈ obj) :
    lookupField row kv.1 = some kv.2 := by
  unfold matchesFilter at h
  have := List.all_eq_true.mp h kv hkv
  simpa using this

theorem buildPartyMemberships_not_committee (orgs : List OrgRow) :
    ∀ (parties : List PartyEntry) (ms : List Item),
      buildPartyMemberships orgs parties = .ok ms →
      ∀ m ∈ ms, isCommittee m = false := by
  intro parties
  induction parties with
  | nil => intro ms h m hm; cases h; simp at hm
  | cons party rest ih =>
    intro ms h m hm
    unfold buildPartyMemberships at h
    cases hget : orgsGet orgs [("classification", .vstr "party"), ("name", .vstr party.name)] with
    | error e => rw [hget] at h; cases e <;> cases h
    | ok org =>
      rw [hget] at h
      cases hrest : buildPartyMemberships orgs rest with
      | error e => rw [hrest] at h; cases h
      | ok ms0 =>
        rw [hrest] at h
        cases h
        have hcls : lookupField org.fields "classification" = some (.vstr "party") :=
          matchesFilter_lookup org.fields _ ("classification", .vstr "party")
            (orgsGet_matches orgs _ org hget) (by simp)
        rcases List.mem_cons.mp hm with hm | hm
        · subst hm
          simp [isCommittee, lookupField, orgRef, orgStr, itemStr, hcls]
        · exact ih ms0 hrest m hm

theorem buildRoleMemberships_not_committee (ctx : Ctx) (orgs : List OrgRow) :
    ∀ (roles : List RoleEntry) (ms : List Item),
      buildRoleMemberships ctx orgs roles = .ok ms →
      ∀ m ∈ ms, isCommittee m = false := by
  intro roles
  induction roles with
  | nil => intro ms h m hm; cases h; simp at hm
  | cons role rest ih =>
    intro ms h m hm
    unfold buildRoleMemberships at h
    by_cases hty : role.type = "upper" ∨ role.type = "lower" ∨ role.type = "legislature"
    · rw [if_pos hty] at h
      cases hget : orgsGet orgs [("classification", .vstr role.type),
          ("jurisdiction_id", .vstr role.jurisdiction)] with
      | error e => rw [hget] at h; cases e <;> cases h
      | ok org =>
        simp only [hget] at h
        cases hd : role.district with
        | none => simp only [hd] at h; cases h
        | some district =>
          simp only [hd] at h
          have hcls : lookupField org.fields "classification" = some (.vstr role.type) :=
            matchesFilter_lookup org.fields _ ("classification", .vstr role.type)
              (orgsGet_matches orgs _ org hget) (by simp)
          have hntc : (orgStr org "classification" == "committee") = false := by
            unfold orgStr itemStr
            rw [hcls]
            rcases hty with hty | hty | hty <;> simp [hty]
          cases hpost : postsGet org district with
          | error e =>
            simp only [hpost] at h
            cases e with
            | doesNotExist =>
              by_cases hleg : (ctx.legacy role.jurisdiction role.type).contains district
              · rw [if_pos hleg] at h
                exact ih ms h m hm
              · rw [if_neg hleg] at h; cases h
            | cancelTransaction => cases h
            | multipleObjects => cases h
            | valueError => cases h
            | keyError => cases h
            | nameError => cases h
            | assertionError => cases h
          | ok post =>
            simp only [hpost] at h
            cases hrest : buildRoleMemberships ctx orgs rest with
            | error e => rw [hrest] at h; cases h
            | ok ms0 =>
              rw [hrest] at h
              cases h
              rcases List.mem_cons.mp hm with hm | hm
              · subst hm
                simp [isCommittee, lookupField, orgRef, hntc]
              · exact ih ms0 hrest m hm
    · rw [if_neg hty] at h; cases h

theorem buildMemberships_not_committee (ctx : Ctx) (d : PersonData)
    (orgs : List OrgRow) (ms : List Item)
    (h : buildMemberships ctx d orgs = .ok ms) :
    ∀ m ∈ ms, isCommittee m = false := by
  unfold buildMemberships at h
  cases hp : buildPartyMemberships orgs d.party with
  | error e => rw [hp] at h; cases h
  | ok pms =>
    rw [hp] at h
    cases hr : buildRoleMemberships ctx orgs d.roles with
    | error e => rw [hr] at h; cases h
    | ok rms =>
      rw [hr] at h
      cases h
      intro m hm
      rcases List.mem_append.mp hm with hm | hm
      · exact buildPartyMemberships_not_committee orgs d.party pms hp m hm
      · exact buildRoleMemberships_not_committee ctx orgs d.roles rms hr m hm

/-- Locate the person row carrying the given id value. -/
def findPersonRow (persons : List PersonRow) (idv : Value) : Option PersonRow :=
  persons.find? (fun q => matchesFilter q.fields [("id", idv)])

/-- The committee-classified memberships of a person row. -/
def committeeOf (p : PersonRow) : List Item := p.memberships.filter isCommittee

theorem matchesFilter_single (row : Item) (k : String) (v : Value) :
    matchesFilter row [(k, v)] = (lookupField row k == some v) := by
  simp [matchesFilter]

theorem person_sub_pass_frame (persons : List PersonRow) (idv0 : Value)
    (get : PersonRow → List Item) (set : PersonRow → List Item → PersonRow)
    (view : Item → Bool) (objs : List Item) (p0 : PersonRow)
    (hfields : ∀ q l, (set q l).fields = q.fields)
    (hfilter : persons.filter (fun q => matchesFilter q.fields [("id", idv0)]) = [p0])
    (hupd : (update_subobjects (get p0) view objs p0.saves).1 = true →
      committeeOf { set p0 (update_subobjects (get p0) view objs p0.saves).2.1 with
        saves := (update_subobjects (get p0) view objs p0.saves).2.2 } = committeeOf p0) :
    (∃ p1, (person_sub_pass persons idv0 get set view objs).2.filter
        (fun q => matchesFilter q.fields [("id", idv0)]) = [p1] ∧
      committeeOf p1 = committeeOf p0) ∧
    (∀ idv p, findPersonRow persons idv = some p →
      ∃ p', findPersonRow (person_sub_pass persons idv0 get set view objs).2 idv = some p' ∧
        committeeOf p' = committeeOf p) := by
  have hfind0 : persons.find? (fun q => matchesFilter q.fields [("id", idv0)]) = some p0 :=
    find?_of_filter_single _ persons p0 hfilter
  have hp0pred : matchesFilter p0.fields [("id", idv0)] = true := by
    have h2 := List.find?_some hfind0
    simpa using h2
  simp only [person_sub_pass, hfind0]
  by_cases h1 : (update_subobjects (get p0) view objs p0.saves).1 = true
  · rw [if_pos h1]
    have hgfields : ∀ q : PersonRow,
        ((if matchesFilter q.fields [("id", idv0)] then
            { set q (update_subobjects (get p0) view objs p0.saves).2.1 with
              saves := (update_subobjects (get p0) view objs p0.saves).2.2 }
          else q) : PersonRow).fields = q.fields := by
      intro q
      by_cases hq : matchesFilter q.fields [("id", idv0)] <;> simp [hq, hfields]
    have hstable : ∀ (idv : Value) (q : PersonRow),
        matchesFilter ((if matchesFilter q.fields [("id", idv0)] then
            { set q (update_subobjects (get p0) view objs p0.saves).2.1 with
              saves := (update_subobjects (get p0) view objs p0.saves).2.2 }
          else q) : PersonRow).fields [("id", idv)]
          = matchesFilter q.fields [("id", idv)] := by
      intro idv q
      rw [hgfields q]
    constructor
    · refine ⟨{ set p0 (update_subobjects (get p0) view objs p0.saves).2.1 with
        saves := (update_subobjects (get p0) view objs p0.saves).2.2 }, ?_, hupd h1⟩
      rw [filter_map_pred_mem persons _ _ (fun q _ => hstable idv0 q), hfilter]
      simp [hp0pred]
    · intro idv p hp
      have hmap := find?_map_pred_mem persons _
        (fun q => matchesFilter q.fields [("id", idv)]) (fun q _ => hstable idv q)
      unfold findPersonRow at hp ⊢
      rw [hmap, hp]
      by_cases hq : matchesFilter p.fields [("id", idv0)] = true
      · have hpmem : p ∈ persons := List.mem_of_find?_eq_some hp
        have : p ∈ persons.filter (fun q => matchesFilter q.fields [("id", idv0)]) :=
          List.mem_filter.mpr ⟨hpmem, hq⟩
        rw [hfilter] at this
        have hpp0 : p = p0 := List.mem_singleton.mp this
        subst hpp0
        exact ⟨_, rfl, by simp [hq]; exact hupd h1⟩
      · exact ⟨_, rfl, by simp [hq]⟩
  · rw [if_neg h1]
    exact ⟨⟨p0, hfilter, rfl⟩, fun idv p hp => ⟨p, hp, rfl⟩⟩

theorem personFields_keys (d : PersonData) :
    (personFields d).map Prod.fst
      = ["id", "name", "given_name", "family_name", "gender", "biography",
         "birth_date", "death_date", "image", "extras"] := rfl

theorem person_guoc_frame (persons : List PersonRow) (d : PersonData)
    (c u : Bool) (persons' : List PersonRow)
    (h : person_guoc persons (personFields d) = .ok (c, u, persons')) :
    (∃ p0, persons'.filter
        (fun q => matchesFilter q.fields [("id", Value.vstr d.id)]) = [p0]) ∧
    (∀ idv p, findPersonRow persons idv = some p →
      ∃ p', findPersonRow persons' idv = some p' ∧ committeeOf p' = committeeOf p) := by
  unfold person_guoc at h
  rw [buildKwargs_personFields d] at h
  simp only [pyBind_ok] at h
  cases hf : persons.filter (fun q => matchesFilter q.fields [("id", Value.vstr d.id)]) with
  | nil =>
    rw [hf] at h
    have hnew : matchesFilter (personFields d) [("id", Value.vstr d.id)] = true := by
      simp [matchesFilter, personFields, lookupField]
    cases h
    constructor
    · refine ⟨{ fields := personFields d }, ?_⟩
      rw [List.filter_append, hf]
      simp [hnew]
    · intro idv p hp
      exact ⟨p, find?_append_left _ _ _ p hp, rfl⟩
  | cons p0 rest =>
    cases rest with
    | cons b r2 => rw [hf] at h; cases h
    | nil =>
      rw [hf] at h
      have hp0mem : p0 ∈ persons.filter
          (fun q => matchesFilter q.fields [("id", Value.vstr d.id)]) := by
        rw [hf]; simp
      have hp0pred : matchesFilter p0.fields [("id", Value.vstr d.id)] = true :=
        (List.mem_filter.mp hp0mem).2
      have hp0id : lookupField p0.fields "id" = some (Value.vstr d.id) := by
        have := matchesFilter_lookup p0.fields _ ("id", Value.vstr d.id) hp0pred (by simp)
        simpa using this
      by_cases hupd : (applyUpdates p0.fields (personFields d)).2 = true
      · simp only [hupd, if_true] at h
        cases h
        have hnodup : ((personFields d).map Prod.fst).Nodup := by
          rw [personFields_keys]
          decide
        have hr1id : lookupField (applyUpdates p0.fields (personFields d)).1 "id"
            = some (Value.vstr d.id) := by
          have := applyUpdates_lookup_mem (personFields d) p0.fields hnodup
            ("id", Value.vstr d.id) (by simp [personFields])
          simpa using this
        have hstable : ∀ (idv : Value) (q : PersonRow), q ∈ persons →
            matchesFilter (PersonRow.fields
              (if matchesFilter q.fields [("id", Value.vstr d.id)] = true then
                PersonRow.mk (applyUpdates p0.fields (personFields d)).1
                  q.other_names q.links q.sources q.identifiers q.contact_details
                  q.memberships (q.saves + 1)
              else q)) [("id", idv)]
              = matchesFilter q.fields [("id", idv)] := by
          intro idv q hqmem
          by_cases hq : matchesFilter q.fields [("id", Value.vstr d.id)] = true
          · have hqf : q ∈ persons.filter
                (fun x => matchesFilter x.fields [("id", Value.vstr d.id)]) :=
              List.mem_filter.mpr ⟨hqmem, hq⟩
            rw [hf] at hqf
            have hqp0 : q = p0 := List.mem_singleton.mp hqf
            subst hqp0
            simp only [hq, if_true]
            rw [matchesFilter_single, matchesFilter_single, hr1id, hp0id]
          · simp [hq]
        constructor
        · rw [filter_map_pred_mem persons _ _
            (fun q hq => hstable (Value.vstr d.id) q hq), hf]
          exact ⟨_, rfl⟩
        · intro idv p hp
          unfold findPersonRow at hp ⊢
          rw [find?_map_pred_mem persons _ _ (fun q hq => hstable idv q hq), hp]
          by_cases hq : matchesFilter p.fields [("id", Value.vstr d.id)] = true
          · exact ⟨_, rfl, by simp [hq, committeeOf]⟩
          · exact ⟨_, rfl, by simp [hq]⟩
      · rw [Bool.not_eq_true] at hupd
        simp only [hupd, Bool.false_eq_true, if_false] at h
        cases h
        exact ⟨⟨p0, hf⟩, fun idv p hp => ⟨p, hp, rfl⟩⟩

/-- C8: the person-side membership reconciliation never touches a
committee-classified membership.  Whatever `load_person` does — create,
scalar update, or any sub-collection replacement, including a memberships
replacement — every person row that existed before still exists and its
committee-classified memberships are exactly unchanged: the
committee-excluding read view keeps them out of the count, the match test
and the delete, and the desired list built from party/role resolution never
contains a committee membership. -/
theorem c8_committee_memberships_untouched (ctx : Ctx) (d : PersonData)
    (s : Store) (c u : Bool) (s' : Store) (idv : Value) (p : PersonRow)
    (hload : load_person ctx d s = .ok (c, u, s'))
    (hp : findPersonRow s.persons idv = some p) :
    ∃ p', findPersonRow s'.persons idv = some p' ∧
      committeeOf p' = committeeOf p := by
  cases hg : person_guoc s.persons (personFields d) with
  | error e => simp [load_person, hg, pyBind_err] at hload
  | ok r0 =>
    cases hms : buildMemberships ctx d s.orgs with
    | error e => simp [load_person, hg, pyBind_ok, hms, pyBind_err] at hload
    | ok ms =>
      simp only [load_person, hg, pyBind_ok, hms] at hload
      have hg' : person_guoc s.persons (personFields d) = .ok (r0.1, r0.2.1, r0.2.2) := by
        rw [hg]
      obtain ⟨⟨p0, hfil0⟩, hpres0⟩ := person_guoc_frame s.persons d r0.1 r0.2.1 r0.2.2 hg'
      obtain ⟨⟨p1, hfil1, _⟩, hpres1⟩ := person_sub_pass_frame r0.2.2 (Value.vstr d.id)
        (fun p => p.other_names) (fun p l => { p with other_names := l })
        (fun _ => true) d.other_names p0 (fun _ _ => rfl) hfil0 (fun _ => rfl)
      obtain ⟨⟨p2, hfil2, _⟩, hpres2⟩ := person_sub_pass_frame _ (Value.vstr d.id)
        (fun p => p.links) (fun p l => { p with links := l })
        (fun _ => true) d.links p1 (fun _ _ => rfl) hfil1 (fun _ => rfl)
      obtain ⟨⟨p3, hfil3, _⟩, hpres3⟩ := person_sub_pass_frame _ (Value.vstr d.id)
        (fun p => p.sources) (fun p l => { p with sources := l })
        (fun _ => true) d.sources p2 (fun _ _ => rfl) hfil2 (fun _ => rfl)
      obtain ⟨⟨p4, hfil4, _⟩, hpres4⟩ := person_sub_pass_frame _ (Value.vstr d.id)
        (fun p => p.identifiers) (fun p l => { p with identifiers := l })
        (fun _ => true) (personIdentifiers d) p3 (fun _ _ => rfl) hfil3 (fun _ => rfl)
      obtain ⟨⟨p5, hfil5, _⟩, hpres5⟩ := person_sub_pass_frame _ (Value.vstr d.id)
        (fun p => p.contact_details) (fun p l => { p with contact_details := l })
        (fun _ => true) (personContactDetails d) p4 (fun _ _ => rfl) hfil4 (fun _ => rfl)
      have hobjs : ∀ m ∈ ms, isCommittee m = false :=
        buildMemberships_not_committee ctx d s.orgs ms hms
      have hupd6 : (update_subobjects p5.memberships (fun m => !(isCommittee m))
          ms p5.saves).1 = true →
          committeeOf { ({ p5 with memberships :=
              (update_subobjects p5.memberships (fun m => !(isCommittee m))
                ms p5.saves).2.1 } : PersonRow) with
            saves := (update_subobjects p5.memberships (fun m => !(isCommittee m))
              ms p5.saves).2.2 } = committeeOf p5 := by
        intro h1
        have hsub : subUpdated p5.memberships (fun m => !(isCommittee m)) ms = true := by
          rw [← update_subobjects_fst p5.memberships (fun m => !(isCommittee m)) ms p5.saves]
          exact h1
        have hch := update_subobjects_changed p5.memberships
          (fun m => !(isCommittee m)) ms p5.saves hsub
        unfold committeeOf
        rw [hch]
        show (List.filter isCommittee
          ((p5.memberships.filter (fun r => !(!(isCommittee r)))) ++ ms))
          = p5.memberships.filter isCommittee
        rw [List.filter_append]
        have h2 : ms.filter isCommittee = [] :=
          List.filter_eq_nil_iff.mpr (fun m hm => by simp [hobjs m hm])
        rw [h2, List.append_nil]
        have h3 : p5.memberships.filter (fun r => !(!(isCommittee r)))
            = p5.memberships.filter isCommittee := by
          apply List.filter_congr
          intro m _
          simp
        rw [h3, List.filter_filter]
        apply List.filter_congr
        intro m _
        simp
      obtain ⟨⟨p6, hfil6, _⟩, hpres6⟩ := person_sub_pass_frame _ (Value.vstr d.id)
        (fun p => p.memberships) (fun p l => { p with memberships := l })
        (fun m => !(isCommittee m)) ms p5 (fun _ _ => rfl) hfil5 hupd6
      obtain ⟨q1, hq1, hc1⟩ := hpres0 idv p hp
      obtain ⟨q2, hq2, hc2⟩ := hpres1 idv q1 hq1
      obtain ⟨q3, hq3, hc3⟩ := hpres2 idv q2 hq2
      obtain ⟨q4, hq4, hc4⟩ := hpres3 idv q3 hq3
      obtain ⟨q5, hq5, hc5⟩ := hpres4 idv q4 hq4
      obtain ⟨q6, hq6, hc6⟩ := hpres5 idv q5 hq5
      obtain ⟨q7, hq7, hc7⟩ := hpres6 idv q6 hq6
      cases hload
      exact ⟨q7, hq7, by rw [hc7, hc6, hc5, hc4, hc3, hc2, hc1]⟩

def wC8Committee : Item :=
  [("organization", Value.vorg "ocd-organization/fin" "committee" "j")]

def wC8Person : PersonRow :=
  { fields := [("id", Value.vstr "p1"), ("name", Value.vstr "Old Name")],
    memberships := [wC8Committee] }

def wC8Store : Store := { persons := [wC8Person], orgs := [wPartyOrg], sponsorships := [] }

/-- The load outcome in the C8 witness scenario: the person is renamed and
gains a party membership, so a membership replacement really runs. -/
def wC8Run : Bool × Bool × Store :=
  match load_person ctxW wPersonData wC8Store with
  | .ok r => r
  | .error _ => (false, false, wC8Store)

/-- C8 witness: a person holding one committee membership is reloaded with
changed scalars and a new party membership; the committee membership
survives the replacement exactly. -/
theorem c8_committee_memberships_untouched_witness :
    ∃ p', findPersonRow wC8Run.2.2.persons (Value.vstr "p1") = some p' ∧
      committeeOf p' = committeeOf wC8Person :=
  c8_committee_memberships_untouched ctxW wPersonData wC8Store
    wC8Run.1 wC8Run.2.1 wC8Run.2.2 (Value.vstr "p1") wC8Person (by rfl) (by rfl)
